import Mathlib

/-!
Datastore construction from a configuration tree (`repo/fsrepo/datastores.go`)

A shallow embedding of `constructDatastore` and the `open*Datastore` helpers of
`FSRepo`, followed by theorems about which store (or which error) a given
configuration document produces.

* Go's `interface{}` configuration values are the inductive `Value`.
* Go's `(repo.Datastore, error)` result is `Result`; a failed unchecked type
  assertion (`x.(T)` without the comma-ok form) is the third outcome
  `Result.panic`.
* Library calls (`filepath`, `os`, `flatfs`, `levelds`, `badgerds`) are fields of
  `Env`; the ones that touch the disk thread an explicit world state `σ`.
-/

namespace Fsrepo

/-! ## Data model -/

/-- A dynamically typed configuration value (`interface{}` after decoding). The
builder never inspects a number, so `num` carries an integer for simplicity. -/
inductive Value where
  | null
  | bool (b : Bool)
  | num (n : Int)
  | str (s : String)
  | arr (xs : List Value)
  | map (m : List (String × Value))

/-- A `map[string]interface{}`: the first binding of a key is the one looked up. -/
abbrev Params := List (String × Value)

/-- An `error` value: either built by `fmt.Errorf(format, args...)` in this file,
or handed back by a library. -/
inductive Error where
  | errorf (format : String) (args : List Value)
  | external (msg : String)

/-- The `ds.Key` produced by `ds.NewKey(s)`. -/
inductive Key where
  | NewKey (s : String)

/-- The value returned by `flatfs.ParseShardFunc`. -/
structure ShardIdV1 where
  funName : String
  param : Nat

/-- The constants of `ldbopts.Compression` used by the builder. -/
inductive Compression where
  | DefaultCompression
  | NoCompression
  | SnappyCompression

mutual
/-- A constructed `repo.Datastore`, recorded as the constructor call that made it. -/
inductive Store where
  | MapDatastore
  | LogDatastore (child : Store) (name : String)
  | Measure (pfx : String) (child : Store)
  | MountNew (mounts : List Mount)
  | Flatfs (path : String) (shardFun : ShardIdV1) (sync : Bool)
  | LevelDB (path : String) (compression : Compression)
  | Badger (path : String)
/-- A `mount.Mount{Datastore, Prefix}` binding. -/
inductive Mount where
  | mk (Datastore : Store) (Prefix : Key)
end

/-- Outcome of a builder call: `(store, nil)`, `(nil, err)`, or a run-time panic
raised by a type assertion `v.(want)` that does not hold. -/
inductive Result where
  | ok (s : Store)
  | error (e : Error)
  | panic (v : Value) (want : String)

/-- The library functions the builder calls. `σ` is the state of the outside
world (the disk); calls that touch it return the new state. -/
structure Env (σ : Type) where
  IsAbs : String → Bool
  Join : String → String → String
  ParseShardFunc : String → Except Error ShardIdV1
  CreateOrOpen : String → ShardIdV1 → Bool → σ → Option Error × σ
  NewLevelDatastore : String → Compression → σ → Option Error × σ
  MkdirAll : String → Nat → σ → Option Error × σ
  NewBadgerDatastore : String → σ → Option Error × σ

/-! ## Map indexing and type assertions -/

/-- The two-valued index `v, found := m[k]`. -/
def lookup (m : Params) (k : String) : Option Value :=
  match m with
  | [] => none
  | (k', v) :: rest => if k' = k then some v else lookup rest k

/-- The one-valued index `m[k]`: the nil interface when the key is absent. -/
def index (m : Params) (k : String) : Value :=
  match lookup m k with
  | some v => v
  | none => Value.null

/-- The comparison `v == s` of an interface value with a string constant. -/
def Value.isStr (v : Value) (s : String) : Bool :=
  match v with
  | Value.str t => decide (t = s)
  | _ => false

/-- Turn a library call's `(store, err)` pair into a `Result`. -/
def engineRet {σ : Type} (s : Store) (r : Option Error × σ) : Result × σ :=
  match r with
  | (none, w) => (Result.ok s, w)
  | (some e, w) => (Result.error e, w)

/-! ## The builder -/

/-- The method `openMeasureDB`. -/
def openMeasureDB (pfx : String) (child : Store) : Result :=
  Result.ok (Store.Measure pfx child)

/-- The method `openFlatfsDatastore`. -/
def openFlatfsDatastore {σ : Type} (env : Env σ) (root : String) (params : Params)
    (w : σ) : Result × σ :=
  match index params "path" with
  | Value.str p =>
    let p := if env.IsAbs p then p else env.Join root p
    match index params "shardFunc" with
    | Value.str sshardFun =>
      match env.ParseShardFunc sshardFun with
      | Except.error err => (Result.error err, w)
      | Except.ok shardFun =>
        match index params "sync" with
        | Value.bool syncField =>
          engineRet (Store.Flatfs p shardFun syncField)
            (env.CreateOrOpen p shardFun syncField w)
        | _ => (Result.error (Error.errorf "'sync' field is missing or not boolean" []), w)
    | _ => (Result.error (Error.errorf "'shardFunc' field is missing or not a string" []), w)
  | _ => (Result.error (Error.errorf "'path' field is missing or not boolean" []), w)

/-- The method `openLeveldbDatastore`. -/
def openLeveldbDatastore {σ : Type} (env : Env σ) (root : String) (params : Params)
    (w : σ) : Result × σ :=
  match index params "path" with
  | Value.str p =>
    let p := if env.IsAbs p then p else env.Join root p
    match index params "compression" with
    | Value.str s =>
      let c :=
        if s = "none" then Compression.NoCompression
        else if s = "snappy" then Compression.SnappyCompression
        else Compression.DefaultCompression
      engineRet (Store.LevelDB p c) (env.NewLevelDatastore p c w)
    | v => (Result.panic v "string", w)
  | _ => (Result.error (Error.errorf "'path' field is missing or not string" []), w)

/-- The method `openBadgerDatastore`. -/
def openBadgerDatastore {σ : Type} (env : Env σ) (root : String) (params : Params)
    (w : σ) : Result × σ :=
  match index params "path" with
  | Value.str p =>
    let p := if env.IsAbs p then p else env.Join root p
    match env.MkdirAll p 0o755 w with
    | (some err, w1) => (Result.error err, w1)
    | (none, w1) => engineRet (Store.Badger p) (env.NewBadgerDatastore p w1)
  | _ => (Result.error (Error.errorf "'path' field is missing or not string" []), w)

theorem sizeOf_lookup_lt (m : Params) (k : String) (v : Value)
    (h : lookup m k = some v) : sizeOf v < sizeOf m := by
  induction m with
  | nil => simp [lookup] at h
  | cons kv rest ih =>
    obtain ⟨k', v'⟩ := kv
    simp only [lookup] at h
    split at h
    · simp only [Option.some.injEq] at h
      subst h
      simp
      omega
    · have := ih h
      simp
      omega

theorem sizeOf_index_map_lt (m : Params) (k : String) (c : Params)
    (h : index m k = Value.map c) : sizeOf c < sizeOf m := by
  unfold index at h
  split at h
  · next v hv =>
    have := sizeOf_lookup_lt m k v hv
    subst h
    simp at this
    omega
  · cases h

theorem sizeOf_index_arr_lt (m : Params) (k : String) (xs : List Value)
    (h : index m k = Value.arr xs) : sizeOf xs < sizeOf m := by
  unfold index at h
  split at h
  · next v hv =>
    have := sizeOf_lookup_lt m k v hv
    subst h
    simp at this
    omega
  · cases h

mutual
/-- The method `constructDatastore`. -/
def constructDatastore {σ : Type} (env : Env σ) (root : String) (params : Params)
    (w : σ) : Result × σ :=
  if (index params "type").isStr "mount" then
    match hm : index params "mounts" with
    | Value.arr mounts =>
      have := sizeOf_index_arr_lt params "mounts" mounts hm
      openMountDatastore env root mounts [] w
    | _ => (Result.error (Error.errorf "'mounts' field is missing or not an array" []), w)
  else if (index params "type").isStr "flatfs" then
    openFlatfsDatastore env root params w
  else if (index params "type").isStr "mem" then
    (Result.ok Store.MapDatastore, w)
  else if (index params "type").isStr "log" then
    match hc : index params "child" with
    | Value.map childField =>
      have := sizeOf_index_map_lt params "child" childField hc
      match constructDatastore env root childField w with
      | (Result.ok child, w1) =>
        match index params "name" with
        | Value.str nameField => (Result.ok (Store.LogDatastore child nameField), w1)
        | _ => (Result.error (Error.errorf "'name' field was missing or not a string" []), w1)
      | r => r
    | _ => (Result.error (Error.errorf "'child' field is missing or not a map" []), w)
  else if (index params "type").isStr "measure" then
    match hc : index params "child" with
    | Value.map childField =>
      have := sizeOf_index_map_lt params "child" childField hc
      match constructDatastore env root childField w with
      | (Result.ok child, w1) =>
        match index params "prefix" with
        | Value.str pfx => (openMeasureDB pfx child, w1)
        | _ => (Result.error (Error.errorf "'prefix' field was missing or not a string" []), w1)
      | r => r
    | _ => (Result.error (Error.errorf "'child' field was missing or not a map" []), w)
  else if (index params "type").isStr "levelds" then
    openLeveldbDatastore env root params w
  else if (index params "type").isStr "badgerds" then
    openBadgerDatastore env root params w
  else
    (Result.error (Error.errorf "unknown datastore type: %s" [index params "type"]), w)
termination_by sizeOf params
/-- The method `openMountDatastore`; `mounts` is the slice accumulated by the
loop so far (empty on entry). -/
def openMountDatastore {σ : Type} (env : Env σ) (root : String) (mountcfg : List Value)
    (mounts : List Mount) (w : σ) : Result × σ :=
  match mountcfg with
  | [] => (Result.ok (Store.MountNew mounts), w)
  | iface :: rest =>
    match iface with
    | Value.map cfg =>
      match constructDatastore env root cfg w with
      | (Result.ok child, w1) =>
        match lookup cfg "mountpoint" with
        | none => (Result.error (Error.errorf "no 'mountpoint' on mount" []), w1)
        | some (Value.str s) =>
          openMountDatastore env root rest (mounts ++ [Mount.mk child (Key.NewKey s)]) w1
        | some v => (Result.panic v "string", w1)
      | r => r
    | v => (Result.panic v "map[string]interface \x7b\x7d", w)
termination_by sizeOf mountcfg
end

/-! ## Specification-side vocabulary -/

/-- Whether the characters `needle` occur as one contiguous block of the list. -/
def containsChars (needle : List Char) : List Char → Bool
  | [] => needle.isEmpty
  | c :: cs => needle.isPrefixOf (c :: cs) || containsChars needle cs

/-- An error message names a field when it contains the field's name in single
quotes, the way every `fmt.Errorf` of the builder writes it. -/
def mentionsField (field msg : String) : Bool :=
  containsChars ("'" ++ field ++ "'").data msg.data

/-- The strings the `switch` of `constructDatastore` has a case for. -/
def knownTypes : List String :=
  ["mount", "flatfs", "mem", "log", "measure", "levelds", "badgerds"]

/-- The entries of a `mounts` array all build: each is a mapping, building it in
the state left by its predecessors succeeds, and it carries a string
`mountpoint`. The third index is the binding list this produces, in order; the
second and fourth are the world state before and after. -/
inductive BuildsAll {σ : Type} (env : Env σ) (root : String) :
    List Value → σ → List Mount → σ → Prop where
  | nil (w : σ) : BuildsAll env root [] w [] w
  | cons (cfg : Params) (rest : List Value) (w w1 w2 : σ) (child : Store) (s : String)
      (ms : List Mount) :
      constructDatastore env root cfg w = (Result.ok child, w1) →
      lookup cfg "mountpoint" = some (Value.str s) →
      BuildsAll env root rest w1 ms w2 →
      BuildsAll env root (Value.map cfg :: rest) w (Mount.mk child (Key.NewKey s) :: ms) w2

/-- The descriptor `params`, built from world state `w`, lacks required field `f`
at the first place where the builder looks for it: whatever the builder
evaluates before that lookup succeeds. The last index is the world state at the
moment the lookup fails. -/
inductive MissingField {σ : Type} (env : Env σ) (root : String) :
    Params → σ → String → σ → Prop where
  | mount_mounts (params : Params) (w : σ) :
      index params "type" = Value.str "mount" →
      lookup params "mounts" = none →
      MissingField env root params w "mounts" w
  | mount_mountpoint (params cfg : Params) (pre post : List Value) (ms : List Mount)
      (child : Store) (w w1 w2 : σ) :
      index params "type" = Value.str "mount" →
      index params "mounts" = Value.arr (pre ++ Value.map cfg :: post) →
      BuildsAll env root pre w ms w1 →
      constructDatastore env root cfg w1 = (Result.ok child, w2) →
      lookup cfg "mountpoint" = none →
      MissingField env root params w "mountpoint" w2
  | log_child (params : Params) (w : σ) :
      index params "type" = Value.str "log" →
      lookup params "child" = none →
      MissingField env root params w "child" w
  | log_name (params c : Params) (child : Store) (w w1 : σ) :
      index params "type" = Value.str "log" →
      index params "child" = Value.map c →
      constructDatastore env root c w = (Result.ok child, w1) →
      lookup params "name" = none →
      MissingField env root params w "name" w1
  | measure_child (params : Params) (w : σ) :
      index params "type" = Value.str "measure" →
      lookup params "child" = none →
      MissingField env root params w "child" w
  | measure_pfx (params c : Params) (child : Store) (w w1 : σ) :
      index params "type" = Value.str "measure" →
      index params "child" = Value.map c →
      constructDatastore env root c w = (Result.ok child, w1) →
      lookup params "prefix" = none →
      MissingField env root params w "prefix" w1
  | flatfs_path (params : Params) (w : σ) :
      index params "type" = Value.str "flatfs" →
      lookup params "path" = none →
      MissingField env root params w "path" w
  | flatfs_shardFunc (params : Params) (p : String) (w : σ) :
      index params "type" = Value.str "flatfs" →
      index params "path" = Value.str p →
      lookup params "shardFunc" = none →
      MissingField env root params w "shardFunc" w
  | flatfs_sync (params : Params) (p sshardFun : String) (shardFun : ShardIdV1) (w : σ) :
      index params "type" = Value.str "flatfs" →
      index params "path" = Value.str p →
      index params "shardFunc" = Value.str sshardFun →
      env.ParseShardFunc sshardFun = Except.ok shardFun →
      lookup params "sync" = none →
      MissingField env root params w "sync" w
  | levelds_path (params : Params) (w : σ) :
      index params "type" = Value.str "levelds" →
      lookup params "path" = none →
      MissingField env root params w "path" w
  | badgerds_path (params : Params) (w : σ) :
      index params "type" = Value.str "badgerds" →
      lookup params "path" = none →
      MissingField env root params w "path" w
  | in_log (params c : Params) (f : String) (w w1 : σ) :
      index params "type" = Value.str "log" →
      index params "child" = Value.map c →
      MissingField env root c w f w1 →
      MissingField env root params w f w1
  | in_measure (params c : Params) (f : String) (w w1 : σ) :
      index params "type" = Value.str "measure" →
      index params "child" = Value.map c →
      MissingField env root c w f w1 →
      MissingField env root params w f w1
  | in_mount (params cfg : Params) (pre post : List Value) (ms : List Mount)
      (f : String) (w w1 w2 : σ) :
      index params "type" = Value.str "mount" →
      index params "mounts" = Value.arr (pre ++ Value.map cfg :: post) →
      BuildsAll env root pre w ms w1 →
      MissingField env root cfg w1 f w2 →
      MissingField env root params w f w2

/-- The builder, started on `params` in world state `w`, gets as far as building
the nested descriptor `d` in world state `w1`: `d` is `params` itself, or sits
under the `child` of a log or measure node on the way, or under an entry of a
`mounts` array all of whose earlier entries build (`BuildsAll`: each is a
mapping with a string `mountpoint` whose construction succeeds). -/
inductive Reaches {σ : Type} (env : Env σ) (root : String) :
    Params → σ → Params → σ → Prop where
  | here (params : Params) (w : σ) : Reaches env root params w params w
  | log (params c d : Params) (w w1 : σ) :
      index params "type" = Value.str "log" →
      index params "child" = Value.map c →
      Reaches env root c w d w1 →
      Reaches env root params w d w1
  | measure (params c d : Params) (w w1 : σ) :
      index params "type" = Value.str "measure" →
      index params "child" = Value.map c →
      Reaches env root c w d w1 →
      Reaches env root params w d w1
  | mount (params cfg d : Params) (pre post : List Value) (ms : List Mount)
      (w w0 w1 : σ) :
      index params "type" = Value.str "mount" →
      index params "mounts" = Value.arr (pre ++ Value.map cfg :: post) →
      BuildsAll env root pre w ms w0 →
      Reaches env root cfg w0 d w1 →
      Reaches env root params w d w1

/-- The mount configuration of the two-in-memory-stores scenario. -/
def scenarioMountConfig : Params :=
  [("type", Value.str "mount"),
   ("mounts", Value.arr
      [Value.map [("type", Value.str "mem"), ("mountpoint", Value.str "/a")],
       Value.map [("type", Value.str "mem"), ("mountpoint", Value.str "/b")]])]

/-- A logging decorator over a badger store that has every field but `name`. -/
def logOverBadgerConfig : Params :=
  [("type", Value.str "log"),
   ("child", Value.map [("type", Value.str "badgerds"), ("path", Value.str "/data")])]

/-- A mount whose second entry nests an unknown kind under a log and a measure. -/
def nestedUnknownConfig : Params :=
  [("type", Value.str "mount"),
   ("mounts", Value.arr
      [Value.map [("type", Value.str "mem"), ("mountpoint", Value.str "/a")],
       Value.map [("type", Value.str "log"), ("name", Value.str "l"),
         ("mountpoint", Value.str "/b"),
         ("child", Value.map [("type", Value.str "measure"), ("prefix", Value.str "m"),
           ("child", Value.map [("type", Value.str "redis")])])],
       Value.map [("type", Value.str "mem"), ("mountpoint", Value.str "/c")]])]

/-- A mount whose only entry is a string rather than a mapping. -/
def stringEntryConfig : Params :=
  [("type", Value.str "mount"), ("mounts", Value.arr [Value.str "x"])]

/-- A mount whose only entry has a number for `mountpoint`. -/
def numericMountpointConfig : Params :=
  [("type", Value.str "mount"),
   ("mounts", Value.arr [Value.map [("type", Value.str "mem"), ("mountpoint", Value.num 5)]])]

/-- A levelds descriptor whose `compression` is a boolean. -/
def boolCompressionConfig : Params :=
  [("type", Value.str "levelds"), ("path", Value.str "datastore"),
   ("compression", Value.bool true)]

/-- A flatfs descriptor whose `path` is a number. -/
def numericPathConfig : Params :=
  [("type", Value.str "flatfs"), ("path", Value.num 5),
   ("shardFunc", Value.str "/repo/flatfs/shard/v1/next-to-last/2"),
   ("sync", Value.bool true)]

/-- A levelds descriptor with a `path` and no `compression` field. -/
def noCompressionFieldConfig : Params :=
  [("type", Value.str "levelds"), ("path", Value.str "datastore")]

/-- The flatfs descriptor of the invalid-shard-function scenario. -/
def invalidShardConfig : Params :=
  [("type", Value.str "flatfs"), ("path", Value.str "blocks"),
   ("shardFunc", Value.str "invalid-name"), ("sync", Value.bool true)]

/-- A levelds descriptor whose `compression` is the misspelling `Snappy`. -/
def misspeltCompressionConfig : Params :=
  [("type", Value.str "levelds"), ("path", Value.str "datastore"),
   ("compression", Value.str "Snappy")]

/-- A flatfs descriptor with a relative `path`. -/
def relativeFlatfsConfig : Params :=
  [("type", Value.str "flatfs"), ("path", Value.str "blocks"),
   ("shardFunc", Value.str "/repo/flatfs/shard/v1/next-to-last/2"),
   ("sync", Value.bool true)]

/-- A badgerds descriptor with an absolute `path`. -/
def absoluteBadgerConfig : Params :=
  [("type", Value.str "badgerds"), ("path", Value.str "/data")]

/-- A logging decorator named `audit` over an in-memory store. -/
def logOverMemConfig : Params :=
  [("type", Value.str "log"), ("name", Value.str "audit"),
   ("child", Value.map [("type", Value.str "mem")])]

/-- A world in which every library call is recorded, in order. -/
abbrev Journal := List String

/-- A Unix-like environment that records its calls and in which every engine
opens; the shard-function parser accepts exactly the `next-to-last/2` function. -/
def recordingEnv : Env Journal where
  IsAbs := fun p => decide (p.data.head? = some '/')
  Join := fun a b => a ++ "/" ++ b
  ParseShardFunc := fun s =>
    if s = "/repo/flatfs/shard/v1/next-to-last/2" then Except.ok ⟨"next-to-last", 2⟩
    else Except.error (Error.external "invalid or no prefix in shard identifier")
  CreateOrOpen := fun p _ _ w => (none, w ++ ["flatfs.CreateOrOpen " ++ p])
  NewLevelDatastore := fun p _ w => (none, w ++ ["levelds.NewDatastore " ++ p])
  MkdirAll := fun p _ w => (none, w ++ ["os.MkdirAll " ++ p])
  NewBadgerDatastore := fun p w => (none, w ++ ["badgerds.NewDatastore " ++ p])

/-- The same environment on a disk where no directory can be created. -/
def readOnlyDiskEnv : Env Journal :=
  { recordingEnv with
    MkdirAll := fun p _ w =>
      (some (Error.external ("mkdir " ++ p ++ ": permission denied")),
        w ++ ["os.MkdirAll " ++ p]) }

/-! ## Unfolding lemmas -/

theorem isStr_str (s t : String) : (Value.str s).isStr t = decide (s = t) := rfl

theorem isStr_eq_true_iff (v : Value) (s : String) :
    v.isStr s = true ↔ v = Value.str s := by
  cases v <;> simp [Value.isStr]

theorem index_of_lookup_none (m : Params) (k : String) (h : lookup m k = none) :
    index m k = Value.null := by
  simp [index, h]

theorem constructDatastore_mount {σ : Type} (env : Env σ) (root : String)
    (params : Params) (w : σ) (h : index params "type" = Value.str "mount") :
    constructDatastore env root params w =
      match index params "mounts" with
      | Value.arr mounts => openMountDatastore env root mounts [] w
      | _ => (Result.error (Error.errorf "'mounts' field is missing or not an array" []), w) := by
  rw [constructDatastore]
  simp only [h, isStr_str, decide_True, if_true]
  split <;> simp_all

theorem constructDatastore_flatfs {σ : Type} (env : Env σ) (root : String)
    (params : Params) (w : σ) (h : index params "type" = Value.str "flatfs") :
    constructDatastore env root params w = openFlatfsDatastore env root params w := by
  rw [constructDatastore]
  simp [h, isStr_str]

theorem constructDatastore_mem {σ : Type} (env : Env σ) (root : String)
    (params : Params) (w : σ) (h : index params "type" = Value.str "mem") :
    constructDatastore env root params w = (Result.ok Store.MapDatastore, w) := by
  rw [constructDatastore]
  simp [h, isStr_str]

theorem constructDatastore_log {σ : Type} (env : Env σ) (root : String)
    (params : Params) (w : σ) (h : index params "type" = Value.str "log") :
    constructDatastore env root params w =
      match index params "child" with
      | Value.map childField =>
        match constructDatastore env root childField w with
        | (Result.ok child, w1) =>
          match index params "name" with
          | Value.str nameField => (Result.ok (Store.LogDatastore child nameField), w1)
          | _ => (Result.error (Error.errorf "'name' field was missing or not a string" []), w1)
        | r => r
      | _ => (Result.error (Error.errorf "'child' field is missing or not a map" []), w) := by
  rw [constructDatastore]
  have e1 : ("log" = "mount") = False := by decide
  have e2 : ("log" = "flatfs") = False := by decide
  have e3 : ("log" = "mem") = False := by decide
  simp only [h, isStr_str, e1, e2, e3, decide_False, decide_True, if_true, if_false,
    Bool.false_eq_true]
  split <;> simp_all

theorem constructDatastore_measure {σ : Type} (env : Env σ) (root : String)
    (params : Params) (w : σ) (h : index params "type" = Value.str "measure") :
    constructDatastore env root params w =
      match index params "child" with
      | Value.map childField =>
        match constructDatastore env root childField w with
        | (Result.ok child, w1) =>
          match index params "prefix" with
          | Value.str pfx => (openMeasureDB pfx child, w1)
          | _ => (Result.error (Error.errorf "'prefix' field was missing or not a string" []), w1)
        | r => r
      | _ => (Result.error (Error.errorf "'child' field was missing or not a map" []), w) := by
  rw [constructDatastore]
  have e1 : ("measure" = "mount") = False := by decide
  have e2 : ("measure" = "flatfs") = False := by decide
  have e3 : ("measure" = "mem") = False := by decide
  have e4 : ("measure" = "log") = False := by decide
  simp only [h, isStr_str, e1, e2, e3, e4, decide_False, decide_True, if_true, if_false,
    Bool.false_eq_true]
  split <;> simp_all

theorem constructDatastore_levelds {σ : Type} (env : Env σ) (root : String)
    (params : Params) (w : σ) (h : index params "type" = Value.str "levelds") :
    constructDatastore env root params w = openLeveldbDatastore env root params w := by
  rw [constructDatastore]
  simp [h, isStr_str]

theorem constructDatastore_badgerds {σ : Type} (env : Env σ) (root : String)
    (params : Params) (w : σ) (h : index params "type" = Value.str "badgerds") :
    constructDatastore env root params w = openBadgerDatastore env root params w := by
  rw [constructDatastore]
  simp [h, isStr_str]

theorem openMountDatastore_nil {σ : Type} (env : Env σ) (root : String)
    (mounts : List Mount) (w : σ) :
    openMountDatastore env root [] mounts w = (Result.ok (Store.MountNew mounts), w) := by
  rw [openMountDatastore]

theorem openMountDatastore_cons_map {σ : Type} (env : Env σ) (root : String)
    (cfg : Params) (rest : List Value) (mounts : List Mount) (w : σ) :
    openMountDatastore env root (Value.map cfg :: rest) mounts w =
      match constructDatastore env root cfg w with
      | (Result.ok child, w1) =>
        match lookup cfg "mountpoint" with
        | none => (Result.error (Error.errorf "no 'mountpoint' on mount" []), w1)
        | some (Value.str s) =>
          openMountDatastore env root rest (mounts ++ [Mount.mk child (Key.NewKey s)]) w1
        | some v => (Result.panic v "string", w1)
      | r => r := by
  rw [openMountDatastore]

theorem constructDatastore_default {σ : Type} (env : Env σ) (root : String)
    (params : Params) (w : σ)
    (h : ∀ s, s ∈ knownTypes → (index params "type").isStr s = false) :
    constructDatastore env root params w =
      (Result.error (Error.errorf "unknown datastore type: %s" [index params "type"]), w) := by
  rw [constructDatastore]
  simp [h, knownTypes]

/-! ## Mount loop lemmas -/

theorem openMountDatastore_append_of_buildsAll {σ : Type} (env : Env σ) (root : String)
    (pre : List Value) (w w1 : σ) (ms : List Mount)
    (h : BuildsAll env root pre w ms w1) (rest : List Value) (acc : List Mount) :
    openMountDatastore env root (pre ++ rest) acc w =
      openMountDatastore env root rest (acc ++ ms) w1 := by
  induction h generalizing acc with
  | nil w => simp
  | cons cfg tl w w1 w2 child s ms hb hm _ ih =>
    rw [List.cons_append, openMountDatastore_cons_map, hb]
    simp only [hm]
    rw [ih]
    simp

theorem buildsAll_length {σ : Type} (env : Env σ) (root : String)
    (array : List Value) (w w1 : σ) (ms : List Mount)
    (h : BuildsAll env root array w ms w1) : ms.length = array.length := by
  induction h with
  | nil w => rfl
  | cons cfg tl w w1 w2 child s ms _ _ _ ih => simp [ih]

theorem buildsAll_entry {σ : Type} (env : Env σ) (root : String)
    (array : List Value) (w w1 : σ) (ms : List Mount)
    (h : BuildsAll env root array w ms w1) (i : Nat) (hi : i < array.length) :
    ∃ cfg s child wi wj,
      array[i]? = some (Value.map cfg) ∧
      lookup cfg "mountpoint" = some (Value.str s) ∧
      constructDatastore env root cfg wi = (Result.ok child, wj) ∧
      ms[i]? = some (Mount.mk child (Key.NewKey s)) := by
  induction h generalizing i with
  | nil w => simp at hi
  | cons cfg tl w w1 w2 child s ms hb hm _ ih =>
    cases i with
    | zero => exact ⟨cfg, s, child, w, w1, by simp, hm, hb, by simp⟩
    | succ j =>
      have hj : j < tl.length := by simpa using hi
      obtain ⟨cfg1, s1, child1, wi, wj, h1, h2, h3, h4⟩ := ih j hj
      exact ⟨cfg1, s1, child1, wi, wj, by simpa using h1, h2, h3, by simpa using h4⟩

theorem scenarioMountConfig_builds {σ : Type} (env : Env σ) (root : String) (w : σ) :
    BuildsAll env root
      [Value.map [("type", Value.str "mem"), ("mountpoint", Value.str "/a")],
       Value.map [("type", Value.str "mem"), ("mountpoint", Value.str "/b")]] w
      [Mount.mk Store.MapDatastore (Key.NewKey "/a"),
       Mount.mk Store.MapDatastore (Key.NewKey "/b")] w := by
  refine BuildsAll.cons _ _ w w w _ _ _ (constructDatastore_mem _ _ _ _ rfl) rfl ?_
  refine BuildsAll.cons _ _ w w w _ _ _ (constructDatastore_mem _ _ _ _ rfl) rfl ?_
  exact BuildsAll.nil w

theorem constructDatastore_mount_of_buildsAll {σ : Type} (env : Env σ) (root : String)
    (params : Params) (array : List Value) (w w1 : σ) (ms : List Mount)
    (htype : index params "type" = Value.str "mount")
    (hmounts : index params "mounts" = Value.arr array)
    (hbuild : BuildsAll env root array w ms w1) :
    constructDatastore env root params w = (Result.ok (Store.MountNew ms), w1) := by
  rw [constructDatastore_mount env root params w htype]
  simp only [hmounts]
  have := openMountDatastore_append_of_buildsAll env root array w w1 ms hbuild [] []
  simp only [List.append_nil, List.nil_append] at this
  rw [this, openMountDatastore_nil]

/-! ## Claims -/

/-- C1: when every entry of the `mounts` array is a mapping with a string
`mountpoint` and builds successfully (`BuildsAll`), `constructDatastore` on the
mount descriptor succeeds and returns `mount.New` of a binding list that has the
array's length and order: binding `i` pairs the store built from entry `i` with
`ds.NewKey` of entry `i`'s mountpoint. In particular the scenario configuration
with two in-memory stores builds with the bindings `/a`, `/b` in that order. -/
theorem C1_mount_bindings_follow_array {σ : Type} (env : Env σ) (root : String)
    (params : Params) (array : List Value) (w w1 : σ) (ms : List Mount)
    (htype : index params "type" = Value.str "mount")
    (hmounts : index params "mounts" = Value.arr array)
    (hbuild : BuildsAll env root array w ms w1) :
    constructDatastore env root params w = (Result.ok (Store.MountNew ms), w1) ∧
    ms.length = array.length ∧
    (∀ i, i < array.length →
      ∃ cfg s child wi wj,
        array[i]? = some (Value.map cfg) ∧
        lookup cfg "mountpoint" = some (Value.str s) ∧
        constructDatastore env root cfg wi = (Result.ok child, wj) ∧
        ms[i]? = some (Mount.mk child (Key.NewKey s))) ∧
    constructDatastore env root scenarioMountConfig w =
      (Result.ok (Store.MountNew
        [Mount.mk Store.MapDatastore (Key.NewKey "/a"),
         Mount.mk Store.MapDatastore (Key.NewKey "/b")]), w) :=
  ⟨constructDatastore_mount_of_buildsAll env root params array w w1 ms htype hmounts hbuild,
   buildsAll_length env root array w w1 ms hbuild,
   buildsAll_entry env root array w w1 ms hbuild,
   constructDatastore_mount_of_buildsAll env root scenarioMountConfig _ w w _ rfl rfl
     (scenarioMountConfig_builds env root w)⟩

/-- C1 at the scenario configuration, in the recording environment. -/
theorem C1_mount_bindings_follow_array_witness :
    constructDatastore recordingEnv "/repo" scenarioMountConfig [] =
      (Result.ok (Store.MountNew
        [Mount.mk Store.MapDatastore (Key.NewKey "/a"),
         Mount.mk Store.MapDatastore (Key.NewKey "/b")]), []) :=
  (C1_mount_bindings_follow_array recordingEnv "/repo" scenarioMountConfig _ [] [] _ rfl rfl
    (scenarioMountConfig_builds recordingEnv "/repo" [])).1

/-- C2, as stated, fails: a log descriptor that is complete except for `name`,
over a badger store whose directory cannot be created, returns the library's
`mkdir` error, whose message does not name `name`; the child is built before
`name` is looked up. -/
theorem C2_counterexample :
    lookup logOverBadgerConfig "name" = none ∧
    constructDatastore readOnlyDiskEnv "/repo" logOverBadgerConfig [] =
      (Result.error (Error.external "mkdir /data: permission denied"),
        ["os.MkdirAll /data"]) ∧
    mentionsField "name" "mkdir /data: permission denied" = false := by
  refine ⟨rfl, ?_, by decide⟩
  rw [constructDatastore_log readOnlyDiskEnv "/repo" logOverBadgerConfig [] rfl]
  have hc : index logOverBadgerConfig "child" =
      Value.map [("type", Value.str "badgerds"), ("path", Value.str "/data")] := rfl
  simp only [hc]
  rw [constructDatastore_badgerds readOnlyDiskEnv "/repo"
    [("type", Value.str "badgerds"), ("path", Value.str "/data")] [] rfl]
  rfl

/-- C2 (amended): if required field `f` is absent at the first place where the
builder looks for it (`MissingField`: everything evaluated before that lookup
succeeds), `constructDatastore` returns no store but an error made by
`fmt.Errorf` whose message names `f` in quotes. -/
theorem C2_missing_field_is_named {σ : Type} (env : Env σ) (root : String)
    (params : Params) (w w1 : σ) (f : String)
    (h : MissingField env root params w f w1) :
    ∃ msg, constructDatastore env root params w = (Result.error (Error.errorf msg []), w1) ∧
      mentionsField f msg = true := by
  induction h with
  | mount_mounts params w ht hl =>
    refine ⟨"'mounts' field is missing or not an array", ?_, by decide⟩
    rw [constructDatastore_mount _ _ _ _ ht, index_of_lookup_none _ _ hl]
  | mount_mountpoint params cfg pre post ms child w w1 w2 ht hm hb hc hl =>
    refine ⟨"no 'mountpoint' on mount", ?_, by decide⟩
    rw [constructDatastore_mount _ _ _ _ ht]
    simp only [hm]
    rw [openMountDatastore_append_of_buildsAll _ _ _ _ _ _ hb, openMountDatastore_cons_map, hc]
    simp only [hl]
  | log_child params w ht hl =>
    refine ⟨"'child' field is missing or not a map", ?_, by decide⟩
    rw [constructDatastore_log _ _ _ _ ht, index_of_lookup_none _ _ hl]
  | log_name params c child w w1 ht hc hb hl =>
    refine ⟨"'name' field was missing or not a string", ?_, by decide⟩
    rw [constructDatastore_log _ _ _ _ ht]
    simp only [hc, hb, index_of_lookup_none _ _ hl]
  | measure_child params w ht hl =>
    refine ⟨"'child' field was missing or not a map", ?_, by decide⟩
    rw [constructDatastore_measure _ _ _ _ ht, index_of_lookup_none _ _ hl]
  | measure_pfx params c child w w1 ht hc hb hl =>
    refine ⟨"'prefix' field was missing or not a string", ?_, by decide⟩
    rw [constructDatastore_measure _ _ _ _ ht]
    simp only [hc, hb, index_of_lookup_none _ _ hl]
  | flatfs_path params w ht hl =>
    refine ⟨"'path' field is missing or not boolean", ?_, by decide⟩
    rw [constructDatastore_flatfs _ _ _ _ ht, openFlatfsDatastore,
      index_of_lookup_none _ _ hl]
  | flatfs_shardFunc params p w ht hp hl =>
    refine ⟨"'shardFunc' field is missing or not a string", ?_, by decide⟩
    rw [constructDatastore_flatfs _ _ _ _ ht, openFlatfsDatastore]
    simp only [hp, index_of_lookup_none _ _ hl]
  | flatfs_sync params p sshardFun shardFun w ht hp hs hparse hl =>
    refine ⟨"'sync' field is missing or not boolean", ?_, by decide⟩
    rw [constructDatastore_flatfs _ _ _ _ ht, openFlatfsDatastore]
    simp only [hp, hs, hparse, index_of_lookup_none _ _ hl]
  | levelds_path params w ht hl =>
    refine ⟨"'path' field is missing or not string", ?_, by decide⟩
    rw [constructDatastore_levelds _ _ _ _ ht, openLeveldbDatastore,
      index_of_lookup_none _ _ hl]
  | badgerds_path params w ht hl =>
    refine ⟨"'path' field is missing or not string", ?_, by decide⟩
    rw [constructDatastore_badgerds _ _ _ _ ht, openBadgerDatastore,
      index_of_lookup_none _ _ hl]
  | in_log params c f w w1 ht hc _ ih =>
    obtain ⟨msg, h1, h2⟩ := ih
    refine ⟨msg, ?_, h2⟩
    rw [constructDatastore_log _ _ _ _ ht]
    simp only [hc, h1]
  | in_measure params c f w w1 ht hc _ ih =>
    obtain ⟨msg, h1, h2⟩ := ih
    refine ⟨msg, ?_, h2⟩
    rw [constructDatastore_measure _ _ _ _ ht]
    simp only [hc, h1]
  | in_mount params cfg pre post ms f w w1 w2 ht hm hb _ ih =>
    obtain ⟨msg, h1, h2⟩ := ih
    refine ⟨msg, ?_, h2⟩
    rw [constructDatastore_mount _ _ _ _ ht]
    simp only [hm]
    rw [openMountDatastore_append_of_buildsAll _ _ _ _ _ _ hb, openMountDatastore_cons_map, h1]

/-- C2 (amended) at a measure descriptor without `prefix` over an in-memory store. -/
theorem C2_missing_field_is_named_witness :
    ∃ msg, constructDatastore recordingEnv "/repo"
        [("type", Value.str "measure"), ("child", Value.map [("type", Value.str "mem")])] [] =
          (Result.error (Error.errorf msg []), []) ∧
      mentionsField "prefix" msg = true :=
  C2_missing_field_is_named recordingEnv "/repo"
    [("type", Value.str "measure"), ("child", Value.map [("type", Value.str "mem")])] [] []
    "prefix"
    (MissingField.measure_pfx _ [("type", Value.str "mem")] Store.MapDatastore [] [] rfl rfl
      (constructDatastore_mem recordingEnv "/repo" [("type", Value.str "mem")] [] rfl) rfl)

/-- C3: `constructDatastore` dispatches on `type` alone. When `type` is absent, is
not a string, or is a string outside the seven known kinds, the result is the
`unknown datastore type` error and no store, whatever else the descriptor holds;
when `type` is `mem` the result is a fresh map datastore, whatever else the
descriptor holds. -/
theorem C3_dispatch_on_type_only {σ : Type} (env : Env σ) (root : String)
    (params : Params) (w : σ) :
    ((lookup params "type" = none ∨
        (∀ s, index params "type" ≠ Value.str s) ∨
        (∃ s, index params "type" = Value.str s ∧ s ∉ knownTypes)) →
      constructDatastore env root params w =
        (Result.error (Error.errorf "unknown datastore type: %s" [index params "type"]), w)) ∧
    (index params "type" = Value.str "mem" →
      constructDatastore env root params w = (Result.ok Store.MapDatastore, w)) := by
  refine ⟨fun h => ?_, constructDatastore_mem env root params w⟩
  have hno : ∀ s, s ∈ knownTypes → (index params "type").isStr s = false := by
    intro s hs
    cases hb : (index params "type").isStr s with
    | false => rfl
    | true =>
      rw [isStr_eq_true_iff] at hb
      rcases h with h | h | ⟨t, ht, hnot⟩
      · rw [index_of_lookup_none _ _ h] at hb
        cases hb
      · exact absurd hb (h s)
      · rw [ht] at hb
        cases hb
        exact absurd hs hnot
  exact constructDatastore_default env root params w hno

/-- C3 at a descriptor of kind `redis` and at a `mem` descriptor with stray fields. -/
theorem C3_dispatch_on_type_only_witness :
    constructDatastore recordingEnv "/repo"
        [("type", Value.str "redis"), ("path", Value.str "/x")] [] =
      (Result.error (Error.errorf "unknown datastore type: %s" [Value.str "redis"]), []) ∧
    constructDatastore recordingEnv "/repo"
        [("child", Value.num 3), ("type", Value.str "mem"), ("path", Value.bool true)] [] =
      (Result.ok Store.MapDatastore, []) :=
  ⟨(C3_dispatch_on_type_only recordingEnv "/repo"
      [("type", Value.str "redis"), ("path", Value.str "/x")] []).1
      (Or.inr (Or.inr ⟨"redis", rfl, by decide⟩)),
   (C3_dispatch_on_type_only recordingEnv "/repo"
      [("child", Value.num 3), ("type", Value.str "mem"), ("path", Value.bool true)] []).2 rfl⟩

/-- C4: if the builder, started on the root descriptor, reaches a nested
descriptor through log, measure and mount nodes at any depth (`Reaches`: inside
a mount every earlier entry builds, so the entry on the way is the first one to
fail) and building that nested descriptor fails with error `e`, then
`constructDatastore` on the root returns no store and exactly `e`, neither
wrapped nor replaced. -/
theorem C4_nested_error_unchanged {σ : Type} (env : Env σ) (root : String)
    (params d : Params) (w w1 w2 : σ) (e : Error)
    (hreach : Reaches env root params w d w1)
    (hfail : constructDatastore env root d w1 = (Result.error e, w2)) :
    constructDatastore env root params w = (Result.error e, w2) := by
  induction hreach with
  | here params w => exact hfail
  | log params c d w w1 ht hc _ ih =>
    rw [constructDatastore_log _ _ _ _ ht]
    simp only [hc, ih hfail]
  | measure params c d w w1 ht hc _ ih =>
    rw [constructDatastore_measure _ _ _ _ ht]
    simp only [hc, ih hfail]
  | mount params cfg d pre post ms w w0 w1 ht hm hb _ ih =>
    rw [constructDatastore_mount _ _ _ _ ht]
    simp only [hm]
    rw [openMountDatastore_append_of_buildsAll _ _ _ _ _ _ hb, openMountDatastore_cons_map,
      ih hfail]

/-- C4 at a mount whose second entry is a log over a measure over an unknown kind. -/
theorem C4_nested_error_unchanged_witness :
    constructDatastore recordingEnv "/repo" nestedUnknownConfig [] =
      (Result.error (Error.errorf "unknown datastore type: %s" [Value.str "redis"]), []) :=
  C4_nested_error_unchanged recordingEnv "/repo" nestedUnknownConfig
    [("type", Value.str "redis")] [] [] [] _
    (Reaches.mount _ _ _
      [Value.map [("type", Value.str "mem"), ("mountpoint", Value.str "/a")]]
      [Value.map [("type", Value.str "mem"), ("mountpoint", Value.str "/c")]]
      [Mount.mk Store.MapDatastore (Key.NewKey "/a")] [] [] [] rfl rfl
      (BuildsAll.cons _ _ [] [] [] _ _ _
        (constructDatastore_mem recordingEnv "/repo" _ [] rfl) rfl (BuildsAll.nil []))
      (Reaches.log _ _ _ [] [] rfl rfl
        (Reaches.measure _ _ _ [] [] rfl rfl (Reaches.here _ []))))
    (constructDatastore_default recordingEnv "/repo" [("type", Value.str "redis")] []
      (by decide))

/-- C5 (code evaluated at the failing inputs): a `mounts` entry that is not a
mapping, a `mountpoint` that is not a string and a `compression` that is not a
string each make `constructDatastore` panic on an unchecked type assertion
instead of returning an error; a flatfs `path` that is not a string is reported
as "missing or not boolean". -/
theorem C5_wrong_type_outcomes {σ : Type} (env : Env σ) (root : String) (w : σ) :
    constructDatastore env root stringEntryConfig w =
      (Result.panic (Value.str "x") "map[string]interface \x7b\x7d", w) ∧
    constructDatastore env root numericMountpointConfig w =
      (Result.panic (Value.num 5) "string", w) ∧
    constructDatastore env root boolCompressionConfig w =
      (Result.panic (Value.bool true) "string", w) ∧
    constructDatastore env root numericPathConfig w =
      (Result.error (Error.errorf "'path' field is missing or not boolean" []), w) := by
  refine ⟨?_, ?_, ?_, ?_⟩
  · rw [constructDatastore_mount env root stringEntryConfig w rfl]
    have hm : index stringEntryConfig "mounts" = Value.arr [Value.str "x"] := rfl
    simp only [hm]
    rw [openMountDatastore]
    intro cfg h
    cases h
  · rw [constructDatastore_mount env root numericMountpointConfig w rfl]
    have hm : index numericMountpointConfig "mounts" = Value.arr
        [Value.map [("type", Value.str "mem"), ("mountpoint", Value.num 5)]] := rfl
    simp only [hm]
    rw [openMountDatastore_cons_map,
      constructDatastore_mem env root
        [("type", Value.str "mem"), ("mountpoint", Value.num 5)] w rfl]
    rfl
  · rw [constructDatastore_levelds env root boolCompressionConfig w rfl]
    rfl
  · rw [constructDatastore_flatfs env root numericPathConfig w rfl]
    rfl

/-- C6: with a string `path` p, the path handed to the storage engine (and, for
badgerds, to `os.MkdirAll` as well) is p itself when `filepath.IsAbs p`, and
`filepath.Join root p` otherwise. For flatfs the engine is reached once
`shardFunc` parses and `sync` is a boolean, for levelds once `compression` is a
string. -/
theorem C6_path_resolved_against_root {σ : Type} (env : Env σ) (root : String)
    (params : Params) (p : String) (w : σ)
    (hp : index params "path" = Value.str p) :
    (index params "type" = Value.str "flatfs" →
      ∀ s sf b, index params "shardFunc" = Value.str s →
        env.ParseShardFunc s = Except.ok sf → index params "sync" = Value.bool b →
        (env.IsAbs p = true →
          constructDatastore env root params w =
            engineRet (Store.Flatfs p sf b) (env.CreateOrOpen p sf b w)) ∧
        (env.IsAbs p = false →
          constructDatastore env root params w =
            engineRet (Store.Flatfs (env.Join root p) sf b)
              (env.CreateOrOpen (env.Join root p) sf b w))) ∧
    (index params "type" = Value.str "levelds" →
      ∀ s c, index params "compression" = Value.str s →
        c = (if s = "none" then Compression.NoCompression
          else if s = "snappy" then Compression.SnappyCompression
          else Compression.DefaultCompression) →
        (env.IsAbs p = true →
          constructDatastore env root params w =
            engineRet (Store.LevelDB p c) (env.NewLevelDatastore p c w)) ∧
        (env.IsAbs p = false →
          constructDatastore env root params w =
            engineRet (Store.LevelDB (env.Join root p) c)
              (env.NewLevelDatastore (env.Join root p) c w))) ∧
    (index params "type" = Value.str "badgerds" →
      (env.IsAbs p = true →
        constructDatastore env root params w =
          match env.MkdirAll p 0o755 w with
          | (some err, w1) => (Result.error err, w1)
          | (none, w1) => engineRet (Store.Badger p) (env.NewBadgerDatastore p w1)) ∧
      (env.IsAbs p = false →
        constructDatastore env root params w =
          match env.MkdirAll (env.Join root p) 0o755 w with
          | (some err, w1) => (Result.error err, w1)
          | (none, w1) =>
            engineRet (Store.Badger (env.Join root p))
              (env.NewBadgerDatastore (env.Join root p) w1))) := by
  refine ⟨fun ht s sf b hs hparse hb => ⟨fun ha => ?_, fun ha => ?_⟩,
    fun ht s c hs hcomp => ⟨fun ha => ?_, fun ha => ?_⟩,
    fun ht => ⟨fun ha => ?_, fun ha => ?_⟩⟩
  · rw [constructDatastore_flatfs _ _ _ _ ht, openFlatfsDatastore]
    simp only [hp, hs, hparse, hb, ha, if_true]
  · rw [constructDatastore_flatfs _ _ _ _ ht, openFlatfsDatastore]
    simp only [hp, hs, hparse, hb, ha, Bool.false_eq_true, if_false]
  · rw [constructDatastore_levelds _ _ _ _ ht, openLeveldbDatastore]
    simp only [hp, hs, ha, hcomp, if_true]
  · rw [constructDatastore_levelds _ _ _ _ ht, openLeveldbDatastore]
    simp only [hp, hs, ha, hcomp, Bool.false_eq_true, if_false]
  · rw [constructDatastore_badgerds _ _ _ _ ht, openBadgerDatastore]
    simp only [hp, ha, if_true]
  · rw [constructDatastore_badgerds _ _ _ _ ht, openBadgerDatastore]
    simp only [hp, ha, Bool.false_eq_true, if_false]

/-- C6 at a flatfs descriptor with the relative path `blocks` and a badgerds
descriptor with the absolute path `/data`, under the root `/repo`. -/
theorem C6_path_resolved_against_root_witness :
    constructDatastore recordingEnv "/repo" relativeFlatfsConfig [] =
      (Result.ok (Store.Flatfs "/repo/blocks" ⟨"next-to-last", 2⟩ true),
        ["flatfs.CreateOrOpen /repo/blocks"]) ∧
    constructDatastore recordingEnv "/repo" absoluteBadgerConfig [] =
      (Result.ok (Store.Badger "/data"),
        ["os.MkdirAll /data", "badgerds.NewDatastore /data"]) :=
  ⟨((C6_path_resolved_against_root recordingEnv "/repo" relativeFlatfsConfig "blocks" []
      rfl).1 rfl "/repo/flatfs/shard/v1/next-to-last/2" ⟨"next-to-last", 2⟩ true
      rfl rfl rfl).2 rfl,
   ((C6_path_resolved_against_root recordingEnv "/repo" absoluteBadgerConfig "/data" []
      rfl).2.2 rfl).1 rfl⟩

/-- C7: a log descriptor builds to store `s` exactly when `child` is a mapping,
building it succeeds with some store, `name` is a string, and `s` is
`ds.NewLogDatastore` of that store and that name; a measure descriptor builds to
`s` exactly when `child` is a mapping, building it succeeds, `prefix` is a
string, and `s` is `measure.New` of that prefix and that store. -/
theorem C7_decorator_wraps_built_child {σ : Type} (env : Env σ) (root : String)
    (params : Params) (w w1 : σ) (s : Store) :
    (index params "type" = Value.str "log" →
      (constructDatastore env root params w = (Result.ok s, w1) ↔
        ∃ c child n, index params "child" = Value.map c ∧
          constructDatastore env root c w = (Result.ok child, w1) ∧
          index params "name" = Value.str n ∧ s = Store.LogDatastore child n)) ∧
    (index params "type" = Value.str "measure" →
      (constructDatastore env root params w = (Result.ok s, w1) ↔
        ∃ c child n, index params "child" = Value.map c ∧
          constructDatastore env root c w = (Result.ok child, w1) ∧
          index params "prefix" = Value.str n ∧ s = Store.Measure n child)) := by
  constructor
  · intro ht
    rw [constructDatastore_log _ _ _ _ ht]
    constructor
    · intro h
      split at h
      · next c hc =>
        split at h
        · next child w2 hb =>
          split at h
          · next n hn =>
            simp only [Prod.mk.injEq, Result.ok.injEq] at h
            obtain ⟨h1, h2⟩ := h
            subst h1 h2
            exact ⟨c, child, n, hc, hb, hn, rfl⟩
          · simp at h
        · next hne => exact absurd h (hne s w1)
      · simp at h
    · rintro ⟨c, child, n, hc, hb, hn, rfl⟩
      simp only [hc, hb, hn]
  · intro ht
    rw [constructDatastore_measure _ _ _ _ ht]
    constructor
    · intro h
      split at h
      · next c hc =>
        split at h
        · next child w2 hb =>
          split at h
          · next n hn =>
            simp only [openMeasureDB, Prod.mk.injEq, Result.ok.injEq] at h
            obtain ⟨h1, h2⟩ := h
            subst h1 h2
            exact ⟨c, child, n, hc, hb, hn, rfl⟩
          · simp at h
        · next hne => exact absurd h (hne s w1)
      · simp at h
    · rintro ⟨c, child, n, hc, hb, hn, rfl⟩
      simp only [hc, hb, hn, openMeasureDB]

/-- C7 at a logging decorator named `audit` over an in-memory store. -/
theorem C7_decorator_wraps_built_child_witness :
    constructDatastore recordingEnv "/repo" logOverMemConfig [] =
      (Result.ok (Store.LogDatastore Store.MapDatastore "audit"), []) :=
  ((C7_decorator_wraps_built_child recordingEnv "/repo" logOverMemConfig [] []
      (Store.LogDatastore Store.MapDatastore "audit")).1 rfl).2
    ⟨[("type", Value.str "mem")], Store.MapDatastore, "audit", rfl,
      constructDatastore_mem recordingEnv "/repo" [("type", Value.str "mem")] [] rfl,
      rfl, rfl⟩

/-- C8 (code evaluated at the failing input): for a levelds descriptor with a
string `path`, an absent `compression` field makes `constructDatastore` panic on
the unchecked assertion `params["compression"].(string)` and the engine is not
opened; with `compression` the empty string the engine is opened with
`DefaultCompression`, with `none` with `NoCompression`, with `snappy` with
`SnappyCompression`. -/
theorem C8_levelds_compression_field {σ : Type} (env : Env σ) (root : String)
    (params : Params) (p resolved : String) (w : σ)
    (htype : index params "type" = Value.str "levelds")
    (hpath : index params "path" = Value.str p)
    (hres : resolved = if env.IsAbs p = true then p else env.Join root p) :
    (lookup params "compression" = none →
      constructDatastore env root params w = (Result.panic Value.null "string", w)) ∧
    (index params "compression" = Value.str "" →
      constructDatastore env root params w =
        engineRet (Store.LevelDB resolved Compression.DefaultCompression)
          (env.NewLevelDatastore resolved Compression.DefaultCompression w)) ∧
    (index params "compression" = Value.str "none" →
      constructDatastore env root params w =
        engineRet (Store.LevelDB resolved Compression.NoCompression)
          (env.NewLevelDatastore resolved Compression.NoCompression w)) ∧
    (index params "compression" = Value.str "snappy" →
      constructDatastore env root params w =
        engineRet (Store.LevelDB resolved Compression.SnappyCompression)
          (env.NewLevelDatastore resolved Compression.SnappyCompression w)) := by
  have e1 : ("" = "none") = False := by decide
  have e2 : ("" = "snappy") = False := by decide
  have e3 : ("snappy" = "none") = False := by decide
  rw [constructDatastore_levelds _ _ _ _ htype, openLeveldbDatastore]
  subst hres
  refine ⟨fun h => ?_, fun h => ?_, fun h => ?_, fun h => ?_⟩
  · simp only [hpath, index_of_lookup_none _ _ h]
  · simp only [hpath, h, e1, e2, if_false]
  · simp only [hpath, h, if_true]
  · simp only [hpath, h, e3, if_true, if_false]

/-- C8 at the descriptor with `path` = `datastore` and no `compression`. -/
theorem C8_levelds_compression_field_witness :
    lookup noCompressionFieldConfig "compression" = none ∧
    constructDatastore recordingEnv "/repo" noCompressionFieldConfig [] =
      (Result.panic Value.null "string", []) :=
  ⟨rfl, (C8_levelds_compression_field recordingEnv "/repo" noCompressionFieldConfig
    "datastore" "/repo/datastore" [] rfl rfl rfl).1 rfl⟩

/-- C9: for a flatfs descriptor with a string `path` and a string `shardFunc`
that `flatfs.ParseShardFunc` rejects with `e`, `constructDatastore` returns
exactly `e` and no store, and leaves the world as it found it (no call to
`flatfs.CreateOrOpen` was made), whatever `sync` is. -/
theorem C9_shard_parse_error_returned {σ : Type} (env : Env σ) (root : String)
    (params : Params) (p sshardFun : String) (e : Error) (w : σ)
    (htype : index params "type" = Value.str "flatfs")
    (hpath : index params "path" = Value.str p)
    (hshard : index params "shardFunc" = Value.str sshardFun)
    (hparse : env.ParseShardFunc sshardFun = Except.error e) :
    constructDatastore env root params w = (Result.error e, w) := by
  rw [constructDatastore_flatfs _ _ _ _ htype, openFlatfsDatastore]
  simp only [hpath, hshard, hparse]

/-- C9 at the scenario descriptor with `shardFunc` = `invalid-name`: the journal of
library calls stays empty. -/
theorem C9_shard_parse_error_returned_witness :
    constructDatastore recordingEnv "/repo" invalidShardConfig [] =
      (Result.error (Error.external "invalid or no prefix in shard identifier"), []) :=
  C9_shard_parse_error_returned recordingEnv "/repo" invalidShardConfig "blocks"
    "invalid-name" (Error.external "invalid or no prefix in shard identifier") []
    rfl rfl rfl rfl

/-- C10: for a levelds descriptor with a string `path` and a string `compression`
other than `none` and `snappy`, `constructDatastore` raises no error of its own:
its result is that of `levelds.NewDatastore` on the resolved path with
`DefaultCompression`, the same as for any levelds descriptor with that path and
the empty string for `compression`. -/
theorem C10_unrecognised_compression_is_default {σ : Type} (env : Env σ) (root : String)
    (params : Params) (p c : String) (w : σ)
    (htype : index params "type" = Value.str "levelds")
    (hpath : index params "path" = Value.str p)
    (hcomp : index params "compression" = Value.str c)
    (hnone : c ≠ "none") (hsnappy : c ≠ "snappy") :
    constructDatastore env root params w =
      engineRet
        (Store.LevelDB (if env.IsAbs p = true then p else env.Join root p)
          Compression.DefaultCompression)
        (env.NewLevelDatastore (if env.IsAbs p = true then p else env.Join root p)
          Compression.DefaultCompression w) ∧
    (∀ params2 : Params, index params2 "type" = Value.str "levelds" →
      index params2 "path" = Value.str p → index params2 "compression" = Value.str "" →
      constructDatastore env root params2 w = constructDatastore env root params w) := by
  have key : ∀ (q : Params) (t : String), index q "type" = Value.str "levelds" →
      index q "path" = Value.str p → index q "compression" = Value.str t →
      t ≠ "none" → t ≠ "snappy" →
      constructDatastore env root q w =
        engineRet
          (Store.LevelDB (if env.IsAbs p = true then p else env.Join root p)
            Compression.DefaultCompression)
          (env.NewLevelDatastore (if env.IsAbs p = true then p else env.Join root p)
            Compression.DefaultCompression w) := by
    intro q t h1 h2 h3 h4 h5
    rw [constructDatastore_levelds _ _ _ _ h1, openLeveldbDatastore]
    simp only [h2, h3, h4, h5, if_false]
  refine ⟨key params c htype hpath hcomp hnone hsnappy, fun params2 h1 h2 h3 => ?_⟩
  rw [key params c htype hpath hcomp hnone hsnappy,
    key params2 "" h1 h2 h3 (by decide) (by decide)]

/-- C10 at the misspelling `Snappy`. -/
theorem C10_unrecognised_compression_is_default_witness :
    constructDatastore recordingEnv "/repo" misspeltCompressionConfig [] =
      (Result.ok (Store.LevelDB "/repo/datastore" Compression.DefaultCompression),
        ["levelds.NewDatastore /repo/datastore"]) :=
  (C10_unrecognised_compression_is_default recordingEnv "/repo" misspeltCompressionConfig
    "datastore" "Snappy" [] rfl rfl rfl (by decide) (by decide)).1

end Fsrepo
